import Mathlib

/-!
Verification development for the Medole Modbus transport layer
(`custom_components/medole/modbus.py` and `custom_components/medole/const.py`).

The Python code is shallowly embedded as follows:
- the configuration dictionary becomes a `Config` structure whose fields are
  `Option`-valued (a missing dictionary key is `none`; `dict.get(k, d)` is
  `Option.getD`);
- the pymodbus client object becomes a `Client` structure recording the
  construction parameters and a `connected` flag (pymodbus's own connection
  tracking, read by `_ensure_connection` and reset by `client.close()`);
- blocking I/O against the device is parameterised by an `Env` value that
  says how the underlying pymodbus call behaves on this invocation
  (success, error response, raised exception), together with the device's
  register contents;
- wall-clock time is modelled by rationals: `time.time()` reads the current
  instant, `time.sleep(d)` advances it by exactly `d`;
- each register operation additionally returns the ordered list of
  externally visible actions it performed (`Event`s), used to state
  sequencing properties;
- the process-wide singleton cache `MedoleModbusClient._instances` becomes
  a `Registry` from key strings to `Manager` values, with `resolve`
  embedding `__new__` followed by `__init__`.
-/

namespace Medole

/-! ### Constants from `const.py` -/

def CONF_PORT : String := "port"
def CONF_HOST : String := "host"
def CONNECTION_TYPE_SERIAL : String := "serial"
def CONNECTION_TYPE_TCP : String := "tcp"
def CONNECTION_TYPE_RTUOVERTCP : String := "rtuovertcp"
def DEFAULT_SLAVE_ID : Nat := 1
def DEFAULT_BAUDRATE : Nat := 9600
def DEFAULT_BYTESIZE : Nat := 8
def DEFAULT_PARITY : String := "N"
def DEFAULT_STOPBITS : Nat := 1
def DEFAULT_TCP_PORT : Nat := 502

/-! ### Configuration records -/

/-- The configuration dictionary passed to `MedoleModbusClient`.  Each field
is the value stored under the corresponding `const.py` key, or `none` when
the key is absent from the dictionary. -/
structure Config where
  connectionType : Option String
  port : Option String
  host : Option String
  tcpPort : Option Nat
  baudrate : Option Nat
  bytesize : Option Nat
  parity : Option String
  stopbits : Option Nat
deriving DecidableEq

/-! ### The pymodbus client handle -/

/-- Construction parameters of the pymodbus client object built by
`_create_modbus_client`: either `ModbusSerialClient(port, baudrate,
bytesize, parity, stopbits, timeout)` or `ModbusTcpClient(host, port,
timeout[, framer])`. -/
inductive ClientKind where
  | serial (port : String) (baudrate : Nat) (bytesize : Nat)
      (parity : String) (stopbits : Nat)
  | tcp (host : String) (port : Nat) (framer : Option String)
deriving DecidableEq

/-- A pymodbus client object: its construction parameters plus its own
connection-tracking flag (`client.connected`).  A freshly constructed
client is not connected; `client.connect()` opens the link and
`client.close()` drops it. -/
structure Client where
  kind : ClientKind
  timeout : Nat
  connected : Bool
deriving DecidableEq

/-- Marks the `connected = false` state produced by `client.close()`:
pymodbus releases the socket or serial port and clears its connection
tracking, so the next `_ensure_connection` goes through `connect()`. -/
def closeClient (c : Client) : Client := { c with connected := false }

/-- Configuration failure at construction time.  In the Python source a
missing required key surfaces as a `KeyError` from `self.config[...]`; the
spec calls this `ConfigurationError`. -/
inductive ConfigError where
  | missingKey (key : String)
deriving DecidableEq

/-- Embedding of `MedoleModbusClient._create_modbus_client`: builds the
pymodbus client from the configuration, applying the `const.py` defaults,
without opening the connection.  Missing required keys (`config[CONF_PORT]`
for serial, `config[CONF_HOST]` for the TCP kinds) fail. -/
def createModbusClient (cfg : Config) : Except ConfigError Client :=
  let ct := cfg.connectionType.getD CONNECTION_TYPE_SERIAL
  if ct = CONNECTION_TYPE_SERIAL then
    match cfg.port with
    | none => Except.error (ConfigError.missingKey CONF_PORT)
    | some p =>
        Except.ok
          { kind := ClientKind.serial p (cfg.baudrate.getD DEFAULT_BAUDRATE)
              (cfg.bytesize.getD DEFAULT_BYTESIZE)
              (cfg.parity.getD DEFAULT_PARITY)
              (cfg.stopbits.getD DEFAULT_STOPBITS),
            timeout := 3, connected := false }
  else
    match cfg.host with
    | none => Except.error (ConfigError.missingKey CONF_HOST)
    | some h =>
        let port := cfg.tcpPort.getD DEFAULT_TCP_PORT
        if ct = CONNECTION_TYPE_RTUOVERTCP then
          Except.ok
            { kind := ClientKind.tcp h port (some "rtu"),
              timeout := 3, connected := false }
        else
          Except.ok
            { kind := ClientKind.tcp h port none,
              timeout := 3, connected := false }

/-- Modelled from the spec: the configuration-loading collaborator (not
under `src/`) supplies the device address, applying `DEFAULT_SLAVE_ID`
from `const.py` when the key is absent ("slave/device id 1"). -/
def slaveIdOf (configured : Option Nat) : Nat :=
  configured.getD DEFAULT_SLAVE_ID

/-! ### Register operations

`async_read_register`, `async_write_register` and `async_write_registers`
share the same shape: under `self.lock`, check `_ensure_connection`,
throttle, perform one blocking pymodbus call, classify the outcome.  The
mutual exclusion provided by the lock is studied separately in the
transition system further below; here each operation is embedded as a
sequential state transformer, which is exactly its behaviour while the
lock is held. -/

/-- Exceptions the blocking pymodbus call can raise, as caught by the
`except` clauses of the Python source: `BrokenPipeError`,
`ConnectionResetError`, `ConnectionError`, `OSError` (one family, since
the first three are `OSError` subclasses) and `ModbusException` with its
message. -/
inductive PyExc where
  | brokenPipe
  | connectionReset
  | connectionErr
  | osErr (msg : String)
  | modbusErr (msg : String)
deriving DecidableEq

/-- Whether the exception is caught by the first `except` clause of the
source, `except (BrokenPipeError, ConnectionResetError, ConnectionError,
OSError)`. -/
def isCaughtOsFamily : PyExc → Bool
  | PyExc.brokenPipe => true
  | PyExc.connectionReset => true
  | PyExc.connectionErr => true
  | PyExc.osErr _ => true
  | PyExc.modbusErr _ => false

/-- Behaviour of one blocking pymodbus I/O call: the device answers
normally, the device answers with a protocol-level error response
(`result.isError()`), or the call raises. -/
inductive IOOutcome where
  | ok
  | errResponse
  | raised (e : PyExc)
deriving DecidableEq

/-- Environment of one register operation: how the connection-status
check and `connect()` behave, how the blocking I/O call behaves, and the
device's holding-register contents. -/
structure Env where
  statusCheckRaises : Bool
  connectResult : Bool
  outcome : IOOutcome
  regs : Nat → Nat

/-- Mutable state of one `MedoleModbusClient` relevant to a register
operation: the pymodbus client handle, `_last_request_time`, and the
current wall-clock instant (`time.time()`). -/
structure RwState where
  client : Client
  lastRequestTime : ℚ
  now : ℚ
deriving DecidableEq

/-- Value of `self._min_delay`: 50 ms minimum delay between requests. -/
def MIN_DELAY : ℚ := 1 / 20

/-- Embedding of `_ensure_connection`.  The `try` block reads pymodbus's
own connection tracking (`self.client.connected`); if that check raises,
the flag is left `false` and a connect is attempted.  `client.connect()`
is modelled by `env.connectResult` (pymodbus's synchronous `connect`
reports communication failure by returning `False`).  Returns the boolean
result together with the client (whose `connected` flag `connect` may
have changed). -/
def ensureConnection (env : Env) (c : Client) : Bool × Client :=
  let isConn := if env.statusCheckRaises then false else c.connected
  if isConn then (true, c)
  else if env.connectResult then (true, { c with connected := true })
  else (false, { c with connected := false })

/-- Embedding of `_throttle_request` given the current instant `now` and
`self._last_request_time`: if less than `delay` has elapsed, sleep for
exactly the remaining delta; then set `_last_request_time` to the (new)
current time.  Returns `(instant after the throttle, new
_last_request_time)`. -/
def throttleRequest (now last delay : ℚ) : ℚ × ℚ :=
  let elapsed := now - last
  if elapsed < delay then
    let wake := now + (delay - elapsed)
    (wake, wake)
  else
    (now, now)

/-- Modelled from the spec: a successful pymodbus
`read_holding_registers(address, count)` returns the device's raw 16-bit
register contents for addresses `address, address+1, ..., address+count-1`
in request order (the wire format carries 16-bit words; the library is
delegated, not reimplemented). -/
def readVals (regs : Nat → Nat) (address count : Nat) : List Nat :=
  (List.range count).map (fun i => regs (address + i) % 65536)

/-- Spec-level classification of a failed register operation.  The Python
methods collapse every failure to `None`/`False`; the embedding keeps the
branch taken, which is observable in the source as distinct `except`/
`isError` paths with distinct connection side effects. -/
inductive Failure where
  | disconnected
  | protocolError
  | linkError
deriving DecidableEq

/-- Result of `async_read_register`. -/
inductive ReadResult where
  | success (vals : List Nat)
  | failure (f : Failure)
deriving DecidableEq

/-- Result of `async_write_register` / `async_write_registers`. -/
inductive WriteResult where
  | success
  | failure (f : Failure)
deriving DecidableEq

/-- The Python return value of `async_read_register`: the response object
on success, `None` on every failure path. -/
def ReadResult.toPy : ReadResult → Option (List Nat)
  | ReadResult.success vals => some vals
  | ReadResult.failure _ => none

/-- The Python return value of the write methods: `True` on success,
`False` on every failure path. -/
def WriteResult.toPy : WriteResult → Bool
  | WriteResult.success => true
  | WriteResult.failure _ => false

/-- Externally visible actions of one register operation, used to state
sequencing claims. -/
inductive Event where
  | ensureConn
  | throttleEv
  | ioRead (address count slaveId : Nat)
  | ioWrite (address value slaveId : Nat)
  | ioWriteMany (address : Nat) (values : List Nat) (slaveId : Nat)
deriving DecidableEq

/-- Substrings that make the `ModbusException` handler close the
connection: `"No response" in str(ex) or "CLOSING CONNECTION" in str(ex)`. -/
def modbusIndicatesClosed (msg : String) : Bool :=
  decide (List.IsInfix "No response".data msg.data)
    || decide (List.IsInfix "CLOSING CONNECTION".data msg.data)

/-- Shared failure-classification of a raised exception, from the
`except` clauses of the three register operations (they are textually
identical in the source): the `OSError` family closes the client and
fails; `ModbusException` closes the client only when its message
indicates a dead link, and fails; anything else would propagate uncaught
(`Except.error`). -/
def classifyRaised (e : PyExc) (c : Client) : Except PyExc (Failure × Client) :=
  if isCaughtOsFamily e then
    Except.ok (Failure.linkError, closeClient c)
  else
    match e with
    | PyExc.modbusErr msg =>
        if modbusIndicatesClosed msg then
          Except.ok (Failure.linkError, closeClient c)
        else
          Except.ok (Failure.protocolError, c)
    | e2 => Except.error e2

/-- Embedding of `async_read_register` (body under `self.lock`): check
`_ensure_connection` (fail fast with `None` when false), throttle, one
`read_holding_registers(address, count=count, device_id=self.slave_id)`
call, classify the outcome.  Returns the (rich) result — `Except.error`
would be an exception escaping the method — the updated state and the
performed actions. -/
def asyncReadRegister (env : Env) (slaveId : Nat) (st : RwState)
    (address count : Nat) :
    Except PyExc ReadResult × RwState × List Event :=
  let ec := ensureConnection env st.client
  if ec.1 = false then
    (Except.ok (ReadResult.failure Failure.disconnected),
     { st with client := ec.2 }, [Event.ensureConn])
  else
    let tr := throttleRequest st.now st.lastRequestTime MIN_DELAY
    let st2 : RwState := { client := ec.2, lastRequestTime := tr.2, now := tr.1 }
    let evs := [Event.ensureConn, Event.throttleEv,
                Event.ioRead address count slaveId]
    match env.outcome with
    | IOOutcome.ok =>
        (Except.ok (ReadResult.success (readVals env.regs address count)),
         st2, evs)
    | IOOutcome.errResponse =>
        (Except.ok (ReadResult.failure Failure.protocolError), st2, evs)
    | IOOutcome.raised e =>
        match classifyRaised e ec.2 with
        | Except.ok fc => (Except.ok (ReadResult.failure fc.1),
                           { st2 with client := fc.2 }, evs)
        | Except.error e2 => (Except.error e2, st2, evs)

/-- Embedding of `async_write_register` (body under `self.lock`): same
sequence as the read, with one `write_register(address, value,
device_id=self.slave_id)` call. -/
def asyncWriteRegister (env : Env) (slaveId : Nat) (st : RwState)
    (address value : Nat) :
    Except PyExc WriteResult × RwState × List Event :=
  let ec := ensureConnection env st.client
  if ec.1 = false then
    (Except.ok (WriteResult.failure Failure.disconnected),
     { st with client := ec.2 }, [Event.ensureConn])
  else
    let tr := throttleRequest st.now st.lastRequestTime MIN_DELAY
    let st2 : RwState := { client := ec.2, lastRequestTime := tr.2, now := tr.1 }
    let evs := [Event.ensureConn, Event.throttleEv,
                Event.ioWrite address value slaveId]
    match env.outcome with
    | IOOutcome.ok => (Except.ok WriteResult.success, st2, evs)
    | IOOutcome.errResponse =>
        (Except.ok (WriteResult.failure Failure.protocolError), st2, evs)
    | IOOutcome.raised e =>
        match classifyRaised e ec.2 with
        | Except.ok fc => (Except.ok (WriteResult.failure fc.1),
                           { st2 with client := fc.2 }, evs)
        | Except.error e2 => (Except.error e2, st2, evs)

/-- Embedding of `async_write_registers` (body under `self.lock`): same
sequence with one `write_registers(address, values,
device_id=self.slave_id)` call. -/
def asyncWriteRegisters (env : Env) (slaveId : Nat) (st : RwState)
    (address : Nat) (values : List Nat) :
    Except PyExc WriteResult × RwState × List Event :=
  let ec := ensureConnection env st.client
  if ec.1 = false then
    (Except.ok (WriteResult.failure Failure.disconnected),
     { st with client := ec.2 }, [Event.ensureConn])
  else
    let tr := throttleRequest st.now st.lastRequestTime MIN_DELAY
    let st2 : RwState := { client := ec.2, lastRequestTime := tr.2, now := tr.1 }
    let evs := [Event.ensureConn, Event.throttleEv,
                Event.ioWriteMany address values slaveId]
    match env.outcome with
    | IOOutcome.ok => (Except.ok WriteResult.success, st2, evs)
    | IOOutcome.errResponse =>
        (Except.ok (WriteResult.failure Failure.protocolError), st2, evs)
    | IOOutcome.raised e =>
        match classifyRaised e ec.2 with
        | Except.ok fc => (Except.ok (WriteResult.failure fc.1),
                           { st2 with client := fc.2 }, evs)
        | Except.error e2 => (Except.error e2, st2, evs)

/-! ### `close()`

The source method is synchronous and reads, in full:
`if self.client: self.client.close()`.  It never touches `self.lock`. -/

/-- Primitive steps a method could take with respect to the lock and the
client handle. -/
inductive CloseStep where
  | lockAcquire
  | clientClose
  | lockRelease
deriving DecidableEq

/-- Steps performed by `MedoleModbusClient.close`, translated from the
source: when a client handle exists it calls `self.client.close()` and
nothing else; the serialization lock is never acquired. -/
def closeSteps (hasClient : Bool) : List CloseStep :=
  if hasClient then [CloseStep.clientClose] else []

/-! ### The singleton registry (`__new__` / `__init__`)

`MedoleModbusClient._instances` is a process-wide dictionary from a key
string to an instance.  `__new__` derives the key from the connection
type, the endpoint and the slave id with f-strings; `__init__` runs on
every construction but returns immediately once `_initialized` is set. -/

/-- Decimal rendering of a natural number, as Python's `str`/f-string
does for `int` (canonical decimal, no separators). -/
def digitChar : Nat → Char
  | 0 => '0'
  | 1 => '1'
  | 2 => '2'
  | 3 => '3'
  | 4 => '4'
  | 5 => '5'
  | 6 => '6'
  | 7 => '7'
  | 8 => '8'
  | _ => '9'

/-- Inverse of `digitChar` on decimal digits. -/
def charDigit (c : Char) : Nat := c.toNat - 48

/-- Fuel-driven digit accumulation (structural recursion so that concrete
keys evaluate): with enough fuel, renders `n` in decimal, most significant
digit first. -/
def natStrAux : Nat → Nat → List Char
  | 0, _ => []
  | fuel + 1, n =>
      if n < 10 then [digitChar n]
      else natStrAux fuel (n / 10) ++ [digitChar (n % 10)]

/-- Python's `str(n)` for a natural number. -/
def natStr (n : Nat) : String := String.mk (natStrAux (n + 1) n)

/-- Python's f-string rendering of an optional string: `config.get(k)`
yields `None` when the key is absent, which an f-string renders as the
four characters `None`. -/
def optStr : Option String → String
  | none => "None"
  | some s => s

/-- The cache key computed by `MedoleModbusClient.__new__`. -/
def clientKey (cfg : Config) (slaveId : Nat) : String :=
  let ct := cfg.connectionType.getD CONNECTION_TYPE_SERIAL
  if ct = CONNECTION_TYPE_SERIAL then
    "serial_" ++ optStr cfg.port ++ "_" ++ natStr slaveId
  else if ct = CONNECTION_TYPE_RTUOVERTCP then
    "rtuovertcp_" ++ optStr cfg.host ++ "_"
      ++ natStr (cfg.tcpPort.getD DEFAULT_TCP_PORT) ++ "_" ++ natStr slaveId
  else
    "tcp_" ++ optStr cfg.host ++ "_"
      ++ natStr (cfg.tcpPort.getD DEFAULT_TCP_PORT) ++ "_" ++ natStr slaveId

/-- The spec's `ConnectionIdentity`: transport kind, endpoint descriptor
and slave id. -/
inductive ConnectionIdentity where
  | serial (portPath : String) (slaveId : Nat)
  | tcp (host : String) (tcpPort : Nat) (slaveId : Nat)
  | rtuovertcp (host : String) (tcpPort : Nat) (slaveId : Nat)
deriving DecidableEq

/-- The key string a `ConnectionIdentity` denotes (the same f-string
shapes `__new__` uses). -/
def keyOf : ConnectionIdentity → String
  | ConnectionIdentity.serial p s => "serial_" ++ p ++ "_" ++ natStr s
  | ConnectionIdentity.tcp h pt s =>
      "tcp_" ++ h ++ "_" ++ natStr pt ++ "_" ++ natStr s
  | ConnectionIdentity.rtuovertcp h pt s =>
      "rtuovertcp_" ++ h ++ "_" ++ natStr pt ++ "_" ++ natStr s

/-- The `ConnectionIdentity` a configuration record derives, following
the same branching as `__new__`; `none` when the kind-specific required
endpoint field is missing (such a configuration has no identity and its
construction fails in `_create_modbus_client`). -/
def identityOf (cfg : Config) (slaveId : Nat) : Option ConnectionIdentity :=
  let ct := cfg.connectionType.getD CONNECTION_TYPE_SERIAL
  if ct = CONNECTION_TYPE_SERIAL then
    cfg.port.map (fun p => ConnectionIdentity.serial p slaveId)
  else if ct = CONNECTION_TYPE_RTUOVERTCP then
    cfg.host.map (fun h =>
      ConnectionIdentity.rtuovertcp h (cfg.tcpPort.getD DEFAULT_TCP_PORT) slaveId)
  else
    cfg.host.map (fun h =>
      ConnectionIdentity.tcp h (cfg.tcpPort.getD DEFAULT_TCP_PORT) slaveId)

/-- An instance of `MedoleModbusClient` in the cache.  `uid` is the
object identity (allocation order of `__new__`); the remaining fields are
the attributes `__init__` assigns, `none` while unassigned.  `lockUid` is
the allocation identity of `self.lock` (a fresh `asyncio.Lock` per
`__init__` run that reaches that line). -/
structure Manager where
  uid : Nat
  inited : Bool
  config : Option Config
  slaveId : Option Nat
  client : Option Client
  lockUid : Option Nat
  lastRequestTime : Option ℚ
  minDelay : Option ℚ
deriving DecidableEq

/-- The bare object allocated by `object.__new__`, before `__init__`
runs: only `_initialized = False` is set by `__new__`. -/
def newManager (uid : Nat) : Manager :=
  { uid := uid, inited := false, config := none, slaveId := none,
    client := none, lockUid := none, lastRequestTime := none, minDelay := none }

/-- Embedding of `MedoleModbusClient.__init__`: a no-op when the instance
is already initialized; otherwise assigns the attributes in source order
(`config` and `slave_id` first, then the client — whose construction may
raise, leaving the instance partly assigned and uninitialized — then the
lock, `_last_request_time = 0`, `_min_delay`, `_initialized = True`).
`ctr` is a fresh-allocation counter used for the new lock's identity. -/
def runInit (m : Manager) (cfg : Config) (s : Nat) (ctr : Nat) :
    Except (ConfigError × Manager) (Manager × Nat) :=
  if m.inited then Except.ok (m, ctr)
  else
    let m1 := { m with config := some cfg, slaveId := some s }
    match createModbusClient cfg with
    | Except.error e => Except.error (e, m1)
    | Except.ok c =>
        Except.ok
          ({ m1 with
              client := some c
              lockUid := some ctr
              lastRequestTime := some 0
              minDelay := some MIN_DELAY
              inited := true }, ctr + 1)

/-- The process-wide cache `MedoleModbusClient._instances`, plus a
fresh-allocation counter and the log of keys for which `__new__`
allocated a fresh instance (in order). -/
structure Registry where
  instances : String → Option Manager
  nextUid : Nat
  log : List String

/-- Registry state at process start: empty cache. -/
def emptyRegistry : Registry :=
  { instances := fun _ => none, nextUid := 0, log := [] }

/-- Store `m` under key `k`. -/
def updInst (f : String → Option Manager) (k : String) (m : Manager) :
    String → Option Manager :=
  fun k2 => if k2 = k then some m else f k2

/-- Embedding of constructing `MedoleModbusClient(hass, config, slave_id)`:
`__new__` computes the key, reuses or allocates the cached instance, then
`__init__` runs on it.  Returns the instance (or the propagated
configuration error) and the updated registry; on error the partly
assigned instance remains cached, as in Python. -/
def resolve (r : Registry) (cfg : Config) (s : Nat) :
    Except ConfigError Manager × Registry :=
  match r.instances (clientKey cfg s) with
  | some m =>
      match runInit m cfg s r.nextUid with
      | Except.ok mc =>
          (Except.ok mc.1,
           { r with
              instances := updInst r.instances (clientKey cfg s) mc.1
              nextUid := mc.2 })
      | Except.error em =>
          (Except.error em.1,
           { r with instances := updInst r.instances (clientKey cfg s) em.2 })
  | none =>
      match runInit (newManager r.nextUid) cfg s (r.nextUid + 1) with
      | Except.ok mc =>
          (Except.ok mc.1,
           { instances := updInst (updInst r.instances (clientKey cfg s) (newManager r.nextUid)) (clientKey cfg s) mc.1
             nextUid := mc.2
             log := r.log ++ [clientKey cfg s] })
      | Except.error em =>
          (Except.error em.1,
           { instances := updInst (updInst r.instances (clientKey cfg s) (newManager r.nextUid)) (clientKey cfg s) em.2
             nextUid := r.nextUid + 1
             log := r.log ++ [clientKey cfg s] })

/-- A whole sequence of constructions against the process-wide cache. -/
def resolveAll (r : Registry) : List (Config × Nat) → Registry
  | [] => r
  | q :: qs => resolveAll (resolve r q.1 q.2).2 qs

/-- Well-formedness of the registry, maintained by `resolve` from the
empty initial state: instance uids are fresh and pairwise distinct, and
the allocation log mentions only keys that are cached, each once. -/
structure RegWF (r : Registry) : Prop where
  uidLt : ∀ k m, r.instances k = some m → m.uid < r.nextUid
  uidInj : ∀ k1 k2 m1 m2, k1 ≠ k2 → r.instances k1 = some m1 →
    r.instances k2 = some m2 → m1.uid ≠ m2.uid
  logSome : ∀ k, k ∈ r.log → r.instances k ≠ none
  logNodup : r.log.Nodup

/-! ### The serialization lock as a transition system

`async_read_register`, `async_write_register` and `async_write_registers`
all run their body under `async with self.lock` with the same shape:
acquire the lock, run `_ensure_connection`, await the throttle, start the
blocking I/O call, complete it, release the lock.  Two concurrent callers
against the same manager are modelled as two tasks, each executing that
program; a scheduler picks which task advances at each step (an
`asyncio.Lock` acquire blocks while the lock is held, every other step is
always enabled).  Program counters: 0 = waiting to acquire, 1 = about to
run the connect-check, 2 = about to throttle, 3 = about to start I/O,
4 = I/O in flight, 5 = about to release, 6 = done. -/

/-- Joint state of two tasks running a register operation on the same
manager. -/
structure CState where
  pc1 : Fin 7
  pc2 : Fin 7
  holder : Option (Fin 2)
deriving DecidableEq, Fintype

/-- Program counter of a task. -/
def pcOf (s : CState) (t : Fin 2) : Fin 7 :=
  if t = 0 then s.pc1 else s.pc2

/-- Replace the program counter of a task. -/
def setPc (s : CState) (t : Fin 2) (v : Fin 7) : CState :=
  if t = 0 then { s with pc1 := v } else { s with pc2 := v }

/-- One scheduler step: the chosen task performs its next action if
enabled.  Acquiring blocks while another task holds the lock; releasing
frees it; a finished task stays put; every intermediate action simply
advances (the awaits inside the `async with` block do not release the
lock). -/
def step (s : CState) (t : Fin 2) : CState :=
  let pc := pcOf s t
  if pc = 0 then
    match s.holder with
    | none => setPc { s with holder := some t } t 1
    | some _ => s
  else if pc = 5 then
    setPc { s with holder := none } t 6
  else if pc = 6 then s
  else setPc s t (pc + 1)

/-- Both tasks waiting to acquire, lock free. -/
def startState : CState := { pc1 := 0, pc2 := 0, holder := none }

/-- Run a schedule (a list of task choices) from a state. -/
def runFrom (s : CState) : List (Fin 2) → CState
  | [] => s
  | t :: ts => runFrom (step s t) ts

/-- Run a schedule from the initial state. -/
def runSched (ts : List (Fin 2)) : CState := runFrom startState ts

/-- A task is inside one register operation: it has acquired the lock
(connect-check, throttle, I/O or release pending) and not yet released. -/
def insideOp (s : CState) (t : Fin 2) : Bool :=
  decide (1 ≤ (pcOf s t).val) && decide ((pcOf s t).val ≤ 5)

/-- A task's blocking I/O call is in flight. -/
def ioInFlight (s : CState) (t : Fin 2) : Bool :=
  decide ((pcOf s t).val = 4)

/-- Lock invariant: a task inside the operation is the lock holder. -/
def lockInv (s : CState) : Bool :=
  (!insideOp s 0 || decide (s.holder = some 0))
    && (!insideOp s 1 || decide (s.holder = some 1))

/-! ## Theorems -/

/-! ### Lock transition system lemmas -/

set_option maxRecDepth 4000 in
theorem step_preserves_lockInv :
    ∀ s : CState, ∀ t : Fin 2, lockInv s = true → lockInv (step s t) = true := by
  decide

theorem runFrom_preserves_lockInv :
    ∀ ts : List (Fin 2), ∀ s : CState,
      lockInv s = true → lockInv (runFrom s ts) = true := by
  intro ts
  induction ts with
  | nil => intro s h; exact h
  | cons t ts ih => intro s h; exact ih (step s t) (step_preserves_lockInv s t h)

set_option maxRecDepth 4000 in
theorem lockInv_excludes :
    ∀ s : CState, lockInv s = true →
      (insideOp s 0 && insideOp s 1) = false
      ∧ (ioInFlight s 0 && ioInFlight s 1) = false := by
  decide

/-- Claim C2: for every pair of concurrent read/write register operations
on the same manager (every interleaving the scheduler can produce), the
two operations are never simultaneously past the lock acquisition — in
particular their blocking I/O calls are never in flight at the same time:
the second task waits at the acquire until the first has finished its
connect-check, throttle wait and blocking I/O and released the lock. -/
theorem C2_operations_serialized (ts : List (Fin 2)) :
    (insideOp (runSched ts) 0 && insideOp (runSched ts) 1) = false
    ∧ (ioInFlight (runSched ts) 0 && ioInFlight (runSched ts) 1) = false := by
  have hinv : lockInv (runSched ts) = true :=
    runFrom_preserves_lockInv ts startState (by decide)
  exact lockInv_excludes (runSched ts) hinv

/-- Claim C6: `_ensure_connection` never raises (it is a total function
into `Bool × Client`), and its boolean result always equals the
connection state it leaves behind: `true` only when a usable connection
is confirmed open, and on any communication failure `false` with the
client left disconnected — the failure is reported solely through the
return value. -/
theorem C6_ensure_connection_reports_by_value (env : Env) (c : Client) :
    (ensureConnection env c).1 = (ensureConnection env c).2.connected := by
  cases hs : env.statusCheckRaises <;> cases hcr : env.connectResult <;>
    cases hc : c.connected <;> simp [ensureConnection, hs, hcr, hc]

theorem classifyRaised_returns (e : PyExc) (c : Client) :
    ∃ fc, classifyRaised e c = Except.ok fc := by
  cases e with
  | modbusErr msg =>
      simp only [classifyRaised, isCaughtOsFamily]
      split
      · exact ⟨_, rfl⟩
      · split
        · exact ⟨_, rfl⟩
        · exact ⟨_, rfl⟩
  | brokenPipe => exact ⟨_, rfl⟩
  | connectionReset => exact ⟨_, rfl⟩
  | connectionErr => exact ⟨_, rfl⟩
  | osErr msg => exact ⟨_, rfl⟩

/-- Claim C7: for every environment (every behaviour of the underlying
pymodbus call enumerated by `PyExc`/`IOOutcome`) each of the three
register operations returns an ordinary value — no fault escapes the
manager boundary — while at construction time a configuration error does
propagate. -/
theorem C7_no_uncaught_faults (env : Env) (s a c v : Nat) (vs : List Nat)
    (st : RwState) :
    (∃ r1, (asyncReadRegister env s st a c).1 = Except.ok r1)
    ∧ (∃ r2, (asyncWriteRegister env s st a v).1 = Except.ok r2)
    ∧ (∃ r3, (asyncWriteRegisters env s st a vs).1 = Except.ok r3)
    ∧ (∃ cfg e, createModbusClient cfg = Except.error e) := by
  refine ⟨?_, ?_, ?_,
    ⟨⟨none, none, none, none, none, none, none, none⟩,
     ConfigError.missingKey CONF_PORT, rfl⟩⟩
  · unfold asyncReadRegister
    by_cases hec : (ensureConnection env st.client).1 = false
    · simp [hec]
    · simp only [hec, if_false]
      cases env.outcome with
      | ok => exact ⟨_, rfl⟩
      | errResponse => exact ⟨_, rfl⟩
      | raised e =>
          obtain ⟨fc, hfc⟩ := classifyRaised_returns e (ensureConnection env st.client).2
          simp [hfc]
  · unfold asyncWriteRegister
    by_cases hec : (ensureConnection env st.client).1 = false
    · simp [hec]
    · simp only [hec, if_false]
      cases env.outcome with
      | ok => exact ⟨_, rfl⟩
      | errResponse => exact ⟨_, rfl⟩
      | raised e =>
          obtain ⟨fc, hfc⟩ := classifyRaised_returns e (ensureConnection env st.client).2
          simp [hfc]
  · unfold asyncWriteRegisters
    by_cases hec : (ensureConnection env st.client).1 = false
    · simp [hec]
    · simp only [hec, if_false]
      cases env.outcome with
      | ok => exact ⟨_, rfl⟩
      | errResponse => exact ⟨_, rfl⟩
      | raised e =>
          obtain ⟨fc, hfc⟩ := classifyRaised_returns e (ensureConnection env st.client).2
          simp [hfc]

/-- Claim C8: a configuration missing its kind-specific required field
(serial port path, or host) makes construction fail with a configuration
error and no transport handle; with the fields present the factory
applies the `const.py` defaults (baud 9600, byte size 8, parity `"N"`,
stop bits 1, TCP port 502, timeout 3 s; slave id default 1 is applied by
the configuration-loading caller) and never opens the connection. -/
theorem C8_factory_defaults (cfg : Config) :
    (cfg.connectionType.getD CONNECTION_TYPE_SERIAL = CONNECTION_TYPE_SERIAL →
      cfg.port = none →
      createModbusClient cfg = Except.error (ConfigError.missingKey CONF_PORT))
    ∧ (cfg.connectionType.getD CONNECTION_TYPE_SERIAL ≠ CONNECTION_TYPE_SERIAL →
      cfg.host = none →
      createModbusClient cfg = Except.error (ConfigError.missingKey CONF_HOST))
    ∧ (∀ p, cfg.connectionType.getD CONNECTION_TYPE_SERIAL = CONNECTION_TYPE_SERIAL →
      cfg.port = some p → cfg.baudrate = none → cfg.bytesize = none →
      cfg.parity = none → cfg.stopbits = none →
      createModbusClient cfg = Except.ok
        { kind := ClientKind.serial p DEFAULT_BAUDRATE DEFAULT_BYTESIZE
            DEFAULT_PARITY DEFAULT_STOPBITS,
          timeout := 3, connected := false })
    ∧ (∀ h2, cfg.connectionType = some CONNECTION_TYPE_TCP → cfg.host = some h2 →
      cfg.tcpPort = none →
      createModbusClient cfg = Except.ok
        { kind := ClientKind.tcp h2 DEFAULT_TCP_PORT none,
          timeout := 3, connected := false })
    ∧ (∀ h2, cfg.connectionType = some CONNECTION_TYPE_RTUOVERTCP →
      cfg.host = some h2 → cfg.tcpPort = none →
      createModbusClient cfg = Except.ok
        { kind := ClientKind.tcp h2 DEFAULT_TCP_PORT (some "rtu"),
          timeout := 3, connected := false })
    ∧ (∀ cl, createModbusClient cfg = Except.ok cl → cl.connected = false)
    ∧ slaveIdOf none = 1 := by
  refine ⟨?_, ?_, ?_, ?_, ?_, ?_, rfl⟩
  · intro hct hp
    simp [createModbusClient, hct, hp]
  · intro hct hh
    simp [createModbusClient, hct, hh]
  · intro p hct hp hb hbs hpar hsb
    simp [createModbusClient, hct, hp, hb, hbs, hpar, hsb]
  · intro h2 hct hh hport
    simp [createModbusClient, hct, hh, hport, CONNECTION_TYPE_TCP,
      CONNECTION_TYPE_SERIAL, CONNECTION_TYPE_RTUOVERTCP]
  · intro h2 hct hh hport
    simp [createModbusClient, hct, hh, hport, CONNECTION_TYPE_TCP,
      CONNECTION_TYPE_SERIAL, CONNECTION_TYPE_RTUOVERTCP]
  · intro cl h
    simp only [createModbusClient, CONNECTION_TYPE_SERIAL,
      CONNECTION_TYPE_RTUOVERTCP] at h
    by_cases h1 : cfg.connectionType.getD "serial" = "serial"
    · cases hp : cfg.port with
      | none => simp [h1, hp] at h
      | some p =>
          simp [h1, hp] at h
          rw [← h]
    · cases hh : cfg.host with
      | none => simp [h1, hh] at h
      | some hst =>
          by_cases h2 : cfg.connectionType.getD "serial" = "rtuovertcp"
          · simp [h1, h2, hh] at h
            rw [← h]
          · simp [h1, h2, hh] at h
            rw [← h]

/-- Witness for C8 at concrete configurations: a serial configuration
without a port fails, a minimal serial configuration gets all serial
defaults, a minimal TCP configuration gets the default port. -/
theorem C8_factory_defaults_witness :
    createModbusClient ⟨none, none, none, none, none, none, none, none⟩
        = Except.error (ConfigError.missingKey CONF_PORT)
    ∧ createModbusClient
          ⟨none, some "/dev/ttyUSB0", none, none, none, none, none, none⟩
        = Except.ok
            { kind := ClientKind.serial "/dev/ttyUSB0" DEFAULT_BAUDRATE
                DEFAULT_BYTESIZE DEFAULT_PARITY DEFAULT_STOPBITS,
              timeout := 3, connected := false }
    ∧ createModbusClient
          ⟨some CONNECTION_TYPE_TCP, none, some "10.0.0.5", none, none, none,
           none, none⟩
        = Except.ok
            { kind := ClientKind.tcp "10.0.0.5" DEFAULT_TCP_PORT none,
              timeout := 3, connected := false } :=
  ⟨(C8_factory_defaults _).1 rfl rfl,
   (C8_factory_defaults _).2.2.1 "/dev/ttyUSB0" rfl rfl rfl rfl rfl rfl,
   (C8_factory_defaults _).2.2.2.1 "10.0.0.5" rfl rfl rfl⟩

/-- Claim C9 counterexample: `close()` is not performed under the
serialization lock — contrary to the claim, its step trace contains no
acquisition of `self.lock` (the method is synchronous and never touches
the lock). -/
theorem C9_close_not_under_lock :
    (closeSteps true).count CloseStep.lockAcquire = 0 := by decide

/-- Claim C9 (amended): `close()` instructs the transport handle to
release its resource and marks the connection closed, and it is
idempotent — closing an already-closed manager is a no-op, never an
error — but it is not performed under the serialization lock. -/
theorem C9_close_idempotent (c : Client) :
    closeClient (closeClient c) = closeClient c
    ∧ (closeClient c).connected = false
    ∧ closeSteps true = [CloseStep.clientClose]
    ∧ closeSteps false = [] :=
  ⟨rfl, rfl, rfl, rfl⟩

/-! ### Connection and classification lemmas -/

theorem ensure_cached (env : Env) (c : Client)
    (hchk : env.statusCheckRaises = false) (hc : c.connected = true) :
    ensureConnection env c = (true, c) := by
  simp [ensureConnection, hchk, hc]

theorem ensure_reconnect (env : Env) (c : Client)
    (hchk : env.statusCheckRaises = false) (hc : c.connected = false) :
    (ensureConnection env c).1 = env.connectResult := by
  cases hcr : env.connectResult <;> simp [ensureConnection, hchk, hc, hcr]

theorem classify_os (e : PyExc) (c : Client) (h : isCaughtOsFamily e = true) :
    classifyRaised e c = Except.ok (Failure.linkError, closeClient c) := by
  simp [classifyRaised, h]

theorem classify_modbus_closed (msg : String) (c : Client)
    (h : modbusIndicatesClosed msg = true) :
    classifyRaised (PyExc.modbusErr msg) c
      = Except.ok (Failure.linkError, closeClient c) := by
  simp [classifyRaised, isCaughtOsFamily, h]

/-- Claim C3: on every read/write operation, a protocol-level error
response from the device fails the operation but leaves the client
connected (the handle is not closed), while a transport-level I/O failure
(`OSError` family — broken pipe, reset, socket error — or a
`ModbusException` whose message marks a dead link, as a pymodbus timeout
does) fails the operation as a link error, closes the transport handle
and leaves it disconnected, so the next operation's `_ensure_connection`
goes through a fresh `connect()` (last two conjuncts). -/
theorem C3_error_classification (env : Env) (s a c v : Nat) (vs : List Nat)
    (st : RwState) (msg : String)
    (hconn : st.client.connected = true)
    (hchk : env.statusCheckRaises = false) :
    (env.outcome = IOOutcome.errResponse →
      (asyncReadRegister env s st a c).1
          = Except.ok (ReadResult.failure Failure.protocolError)
      ∧ (asyncReadRegister env s st a c).2.1.client.connected = true
      ∧ (asyncWriteRegister env s st a v).1
          = Except.ok (WriteResult.failure Failure.protocolError)
      ∧ (asyncWriteRegister env s st a v).2.1.client.connected = true
      ∧ (asyncWriteRegisters env s st a vs).1
          = Except.ok (WriteResult.failure Failure.protocolError)
      ∧ (asyncWriteRegisters env s st a vs).2.1.client.connected = true)
    ∧ (∀ e, env.outcome = IOOutcome.raised e → isCaughtOsFamily e = true →
      (asyncReadRegister env s st a c).1
          = Except.ok (ReadResult.failure Failure.linkError)
      ∧ (asyncReadRegister env s st a c).2.1.client.connected = false
      ∧ (asyncWriteRegister env s st a v).1
          = Except.ok (WriteResult.failure Failure.linkError)
      ∧ (asyncWriteRegister env s st a v).2.1.client.connected = false
      ∧ (asyncWriteRegisters env s st a vs).1
          = Except.ok (WriteResult.failure Failure.linkError)
      ∧ (asyncWriteRegisters env s st a vs).2.1.client.connected = false)
    ∧ (env.outcome = IOOutcome.raised (PyExc.modbusErr msg) →
       modbusIndicatesClosed msg = true →
      (asyncReadRegister env s st a c).1
          = Except.ok (ReadResult.failure Failure.linkError)
      ∧ (asyncReadRegister env s st a c).2.1.client.connected = false)
    ∧ (∀ env2 : Env, ∀ c2 : Client, env2.statusCheckRaises = false →
        c2.connected = false → (ensureConnection env2 c2).1 = env2.connectResult)
    ∧ (∀ env2 : Env, ∀ c2 : Client, env2.statusCheckRaises = false →
        c2.connected = true → ensureConnection env2 c2 = (true, c2)) := by
  have hec : ensureConnection env st.client = (true, st.client) :=
    ensure_cached env st.client hchk hconn
  refine ⟨?_, ?_, ?_, ensure_reconnect, ensure_cached⟩
  · intro ho
    simp [asyncReadRegister, asyncWriteRegister, asyncWriteRegisters, hec, ho,
      hconn]
  · intro e ho hcaught
    have hcl := classify_os e st.client hcaught
    simp [asyncReadRegister, asyncWriteRegister, asyncWriteRegisters, hec, ho,
      hcl, closeClient]
  · intro ho hmsg
    have hcl := classify_modbus_closed msg st.client hmsg
    simp [asyncReadRegister, hec, ho, hcl, closeClient]

/-- Witness for C3 at a concrete connected state: an error response fails
the read but keeps the client connected; a connection reset fails it and
leaves the client disconnected. -/
theorem C3_error_classification_witness :
    (asyncReadRegister
        ⟨false, true, IOOutcome.errResponse, fun _ => 0⟩ 1
        ⟨⟨ClientKind.tcp "10.0.0.5" 502 none, 3, true⟩, 0, 7⟩ 1 1).1
      = Except.ok (ReadResult.failure Failure.protocolError)
    ∧ (asyncReadRegister
        ⟨false, true, IOOutcome.raised PyExc.connectionReset, fun _ => 0⟩ 1
        ⟨⟨ClientKind.tcp "10.0.0.5" 502 none, 3, true⟩, 0, 7⟩ 1 1).2.1.client.connected
      = false :=
  ⟨((C3_error_classification
      ⟨false, true, IOOutcome.errResponse, fun _ => 0⟩ 1 1 1 1 []
      ⟨⟨ClientKind.tcp "10.0.0.5" 502 none, 3, true⟩, 0, 7⟩ "" rfl rfl).1 rfl).1,
   (((C3_error_classification
      ⟨false, true, IOOutcome.raised PyExc.connectionReset, fun _ => 0⟩ 1 1 1 1 []
      ⟨⟨ClientKind.tcp "10.0.0.5" 502 none, 3, true⟩, 0, 7⟩ "" rfl rfl).2.1
      PyExc.connectionReset rfl rfl).2).1⟩

/-- Claim C4: `async_read_register` runs, in order, the connect check
(failing fast with no I/O when it reports false), the throttle, and a
single holding-register read of `count` registers at `address` against
the configured device id, with no retry; a successful read returns the
raw 16-bit register values in request order, exactly `count` of them. -/
theorem C4_read_sequence (env : Env) (s : Nat) (st : RwState) (a c : Nat) :
    ((ensureConnection env st.client).1 = false →
      (asyncReadRegister env s st a c).1
          = Except.ok (ReadResult.failure Failure.disconnected)
      ∧ (asyncReadRegister env s st a c).2.2 = [Event.ensureConn])
    ∧ ((ensureConnection env st.client).1 = true →
      (asyncReadRegister env s st a c).2.2
        = [Event.ensureConn, Event.throttleEv, Event.ioRead a c s])
    ∧ (env.outcome = IOOutcome.ok → (ensureConnection env st.client).1 = true →
      (asyncReadRegister env s st a c).1
        = Except.ok (ReadResult.success (readVals env.regs a c)))
    ∧ (readVals env.regs a c).length = c
    ∧ (∀ i, i < c →
        (readVals env.regs a c).get? i = some (env.regs (a + i) % 65536))
    ∧ (∀ x, x ∈ readVals env.regs a c → x < 65536) := by
  refine ⟨?_, ?_, ?_, ?_, ?_, ?_⟩
  · intro hec
    simp [asyncReadRegister, hec]
  · intro hec
    unfold asyncReadRegister
    rw [if_neg (by simp [hec])]
    cases ho : env.outcome with
    | ok => rfl
    | errResponse => rfl
    | raised e =>
        obtain ⟨fc, hfc⟩ :=
          classifyRaised_returns e (ensureConnection env st.client).2
        simp [hfc]
  · intro ho hec
    unfold asyncReadRegister
    rw [if_neg (by simp [hec]), ho]
  · simp [readVals]
  · intro i hi
    simp only [readVals, List.get?_eq_getElem?, List.getElem?_map,
      List.getElem?_range hi]
    rfl
  · intro x hx
    simp only [readVals, List.mem_map] at hx
    obtain ⟨i, _, hxi⟩ := hx
    rw [← hxi]
    exact Nat.mod_lt _ (by norm_num)

/-- Witness for C4 at a concrete environment: with the device holding
value `40 + addr` at register `addr`, reading 3 registers at 16 returns
the three values in order after the connect check and throttle. -/
theorem C4_read_sequence_witness :
    (asyncReadRegister ⟨false, true, IOOutcome.ok, fun addr => 40 + addr⟩ 1
        ⟨⟨ClientKind.tcp "10.0.0.5" 502 none, 3, true⟩, 0, 7⟩ 16 3).1
      = Except.ok (ReadResult.success [56, 57, 58])
    ∧ (asyncReadRegister ⟨false, true, IOOutcome.ok, fun addr => 40 + addr⟩ 1
        ⟨⟨ClientKind.tcp "10.0.0.5" 502 none, 3, true⟩, 0, 7⟩ 16 3).2.2
      = [Event.ensureConn, Event.throttleEv, Event.ioRead 16 3 1] := by
  constructor
  · have h := (C4_read_sequence
      ⟨false, true, IOOutcome.ok, fun addr => 40 + addr⟩ 1
      ⟨⟨ClientKind.tcp "10.0.0.5" 502 none, 3, true⟩, 0, 7⟩ 16 3).2.2.1 rfl
      (by decide)
    rw [h]
    rfl
  · exact (C4_read_sequence
      ⟨false, true, IOOutcome.ok, fun addr => 40 + addr⟩ 1
      ⟨⟨ClientKind.tcp "10.0.0.5" 502 none, 3, true⟩, 0, 7⟩ 16 3).2.1
      (by decide)

/-! ### Throttle lemmas -/

theorem throttle_lower (now last delay : ℚ) :
    last + delay ≤ (throttleRequest now last delay).1 := by
  simp only [throttleRequest]
  split
  · show last + delay ≤ now + (delay - (now - last))
    linarith
  · next h =>
      show last + delay ≤ now
      linarith [not_lt.mp h]

theorem throttle_snd_eq (now last delay : ℚ) :
    (throttleRequest now last delay).2 = (throttleRequest now last delay).1 := by
  simp only [throttleRequest]
  split <;> rfl

theorem read_io_time (env : Env) (s : Nat) (st : RwState) (a c : Nat)
    (h : Event.ioRead a c s ∈ (asyncReadRegister env s st a c).2.2) :
    (asyncReadRegister env s st a c).2.1.lastRequestTime
      = (throttleRequest st.now st.lastRequestTime MIN_DELAY).2
    ∧ (asyncReadRegister env s st a c).2.1.now
      = (throttleRequest st.now st.lastRequestTime MIN_DELAY).1 := by
  by_cases hec : (ensureConnection env st.client).1 = false
  · simp [asyncReadRegister, hec] at h
  · unfold asyncReadRegister at h ⊢
    rw [if_neg hec] at h ⊢
    cases ho : env.outcome with
    | ok => exact ⟨rfl, rfl⟩
    | errResponse => exact ⟨rfl, rfl⟩
    | raised e =>
        obtain ⟨fc, hfc⟩ :=
          classifyRaised_returns e (ensureConnection env st.client).2
        simp [hfc]

/-- Claim C5: between two consecutive register operations on the same
manager that both perform I/O, the wall-clock gap is at least
`_min_delay` (50 ms): the throttle suspends the caller for exactly the
remaining delta when less than the delay has elapsed, and
`_last_request_time` is set to the current instant immediately before the
I/O, so the second operation's I/O instant is at least `MIN_DELAY` after
the first's. -/
theorem C5_throttle_spacing (env1 env2 : Env) (s a1 c1 a2 c2 : Nat)
    (st st1 stD st2 : RwState) (d : ℚ)
    (r1 r2 : Except PyExc ReadResult) (ev1 ev2 : List Event)
    (e1 : asyncReadRegister env1 s st a1 c1 = (r1, st1, ev1))
    (hd : stD = { st1 with now := st1.now + d })
    (e2 : asyncReadRegister env2 s stD a2 c2 = (r2, st2, ev2))
    (h1 : Event.ioRead a1 c1 s ∈ ev1)
    (h2 : Event.ioRead a2 c2 s ∈ ev2) :
    st1.lastRequestTime + MIN_DELAY ≤ st2.lastRequestTime
    ∧ st1.lastRequestTime = st1.now
    ∧ (∀ now last : ℚ, now - last < MIN_DELAY →
        (throttleRequest now last MIN_DELAY).1
          = now + (MIN_DELAY - (now - last)))
    ∧ (∀ now last : ℚ,
        (throttleRequest now last MIN_DELAY).2
          = (throttleRequest now last MIN_DELAY).1) := by
  have hio1 := read_io_time env1 s st a1 c1 (by rw [e1]; exact h1)
  have hio2 := read_io_time env2 s stD a2 c2 (by rw [e2]; exact h2)
  rw [e1] at hio1
  rw [e2] at hio2
  refine ⟨?_, ?_, ?_, fun now last => throttle_snd_eq now last MIN_DELAY⟩
  · rw [hio2.1, throttle_snd_eq]
    have hlow := throttle_lower stD.now stD.lastRequestTime MIN_DELAY
    have hlast : stD.lastRequestTime = st1.lastRequestTime := by rw [hd]
    linarith [hlow, hlast ▸ hlow]
  · rw [hio1.1, hio1.2, throttle_snd_eq]
  · intro now last hlt
    simp only [throttleRequest]
    rw [if_pos hlt]

/-- Witness for C5 at a concrete pair of operations: the first read does
its I/O at instant 7, the scheduler resumes the second read one second
later, and the two I/O instants are at least 50 ms apart. -/
theorem C5_throttle_spacing_witness :
    ((7 : ℚ) + MIN_DELAY ≤ 8) ∧ ((7 : ℚ) = 7) := by
  have h := C5_throttle_spacing
    ⟨false, true, IOOutcome.ok, fun _ => 0⟩ ⟨false, true, IOOutcome.ok, fun _ => 0⟩
    1 16 1 16 1
    ⟨⟨ClientKind.tcp "10.0.0.5" 502 none, 3, true⟩, 0, 7⟩
    ⟨⟨ClientKind.tcp "10.0.0.5" 502 none, 3, true⟩, 7, 7⟩
    ⟨⟨ClientKind.tcp "10.0.0.5" 502 none, 3, true⟩, 7, 8⟩
    ⟨⟨ClientKind.tcp "10.0.0.5" 502 none, 3, true⟩, 8, 8⟩
    1
    (Except.ok (ReadResult.success [0]))
    (Except.ok (ReadResult.success [0]))
    [Event.ensureConn, Event.throttleEv, Event.ioRead 16 1 1]
    [Event.ensureConn, Event.throttleEv, Event.ioRead 16 1 1]
    (by norm_num [asyncReadRegister, ensureConnection, throttleRequest,
      MIN_DELAY, readVals])
    (by norm_num)
    (by norm_num [asyncReadRegister, ensureConnection, throttleRequest,
      MIN_DELAY, readVals])
    (by decide) (by decide)
  exact ⟨h.1, h.2.1⟩

/-! ### Decimal strings and key injectivity -/

theorem digitChar_ne_underscore : ∀ d : Nat, digitChar d ≠ '_' := by
  intro d
  rcases d with _|_|_|_|_|_|_|_|_|d
  · decide
  · decide
  · decide
  · decide
  · decide
  · decide
  · decide
  · decide
  · decide
  · rw [show digitChar (d + 1 + 1 + 1 + 1 + 1 + 1 + 1 + 1 + 1) = '9' from rfl]
    decide

theorem charDigit_digitChar : ∀ d : Nat, d < 10 → charDigit (digitChar d) = d := by
  decide

theorem natStrAux_eq_digits :
    ∀ fuel n : Nat, 0 < n → n ≤ fuel →
      natStrAux fuel n = ((Nat.digits 10 n).map digitChar).reverse := by
  intro fuel
  induction fuel with
  | zero => intro n h0 hle; omega
  | succ f ih =>
      intro n h0 hle
      unfold natStrAux
      by_cases hlt : n < 10
      · rw [if_pos hlt]
        have hd : Nat.digits 10 n = [n] := by
          rw [Nat.digits_def' (by norm_num : (1 : ℕ) < 10) h0,
            Nat.div_eq_of_lt hlt]
          simp [Nat.mod_eq_of_lt hlt]
        rw [hd]
        rfl
      · rw [if_neg hlt]
        have h10 : 10 ≤ n := le_of_not_lt hlt
        have hq0 : 0 < n / 10 := Nat.div_pos h10 (by norm_num)
        have hqle : n / 10 ≤ f := by
          have := Nat.div_lt_self h0 (by norm_num : 1 < 10)
          omega
        rw [ih (n / 10) hq0 hqle,
          Nat.digits_def' (by norm_num : (1 : ℕ) < 10) h0]
        simp

theorem natStr_eq (n : Nat) :
    natStr n = if n = 0 then "0"
      else String.mk (((Nat.digits 10 n).map digitChar).reverse) := by
  by_cases h0 : n = 0
  · subst h0
    rfl
  · rw [if_neg h0]
    unfold natStr
    rw [natStrAux_eq_digits (n + 1) n (Nat.pos_of_ne_zero h0) (Nat.le_succ n)]

theorem natStr_no_underscore (n : Nat) : '_' ∉ (natStr n).data := by
  rw [natStr_eq]
  split
  · decide
  · intro hmem
    have h2 : '_' ∈ ((Nat.digits 10 n).map digitChar).reverse := hmem
    rw [List.mem_reverse, List.mem_map] at h2
    obtain ⟨d, _, hdc⟩ := h2
    exact digitChar_ne_underscore d hdc

theorem map_digitChar_digits (n : Nat) :
    ((Nat.digits 10 n).map digitChar).map charDigit = Nat.digits 10 n := by
  rw [List.map_map]
  have h1 : ∀ d ∈ Nat.digits 10 n, (charDigit ∘ digitChar) d = id d := fun d hd =>
    charDigit_digitChar d (Nat.digits_lt_base (by norm_num) hd)
  rw [List.map_congr_left h1, List.map_id]

theorem map_digitChar_zero {n : Nat}
    (h : (Nat.digits 10 n).map digitChar = ['0']) : n = 0 := by
  have h2 := congrArg (List.map charDigit) h
  rw [map_digitChar_digits] at h2
  have h3 : Nat.digits 10 n = [0] := by rw [h2]; rfl
  have h4 := Nat.ofDigits_digits 10 n
  rw [h3] at h4
  simpa [Nat.ofDigits] using h4.symm

theorem natStr_inj {m n : Nat} (h : natStr m = natStr n) : m = n := by
  rw [natStr_eq, natStr_eq] at h
  by_cases hm : m = 0 <;> by_cases hn : n = 0
  · rw [hm, hn]
  · exfalso
    rw [if_pos hm, if_neg hn] at h
    have hd : (['0'] : List Char) = ((Nat.digits 10 n).map digitChar).reverse :=
      congrArg String.data h
    have h2 := congrArg List.reverse hd
    rw [List.reverse_reverse] at h2
    have hmap : (Nat.digits 10 n).map digitChar = ['0'] := h2.symm
    exact hn (map_digitChar_zero hmap)
  · exfalso
    rw [if_neg hm, if_pos hn] at h
    have hd : ((Nat.digits 10 m).map digitChar).reverse = (['0'] : List Char) :=
      congrArg String.data h
    have h2 := congrArg List.reverse hd
    rw [List.reverse_reverse] at h2
    have hmap : (Nat.digits 10 m).map digitChar = ['0'] := h2
    exact hm (map_digitChar_zero hmap)
  · rw [if_neg hm, if_neg hn] at h
    have hd : ((Nat.digits 10 m).map digitChar).reverse
        = ((Nat.digits 10 n).map digitChar).reverse := congrArg String.data h
    have h2 := congrArg List.reverse hd
    rw [List.reverse_reverse, List.reverse_reverse] at h2
    have h3 := congrArg (List.map charDigit) h2
    rw [map_digitChar_digits, map_digitChar_digits] at h3
    have h4 := congrArg (Nat.ofDigits 10) h3
    rw [Nat.ofDigits_digits, Nat.ofDigits_digits] at h4
    exact_mod_cast h4

theorem append_underscore_inj :
    ∀ a b t u : List Char, '_' ∉ t → '_' ∉ u →
      a ++ '_' :: t = b ++ '_' :: u → a = b ∧ t = u := by
  intro a
  induction a with
  | nil =>
      intro b t u ht hu h
      cases b with
      | nil =>
          simp only [List.nil_append, List.cons.injEq] at h
          exact ⟨rfl, h.2⟩
      | cons c bs =>
          simp only [List.nil_append, List.cons_append, List.cons.injEq] at h
          exfalso
          apply ht
          rw [h.2]
          exact List.mem_append_right _ (List.mem_cons_self _ _)
  | cons c as ih =>
      intro b t u ht hu h
      cases b with
      | nil =>
          simp only [List.nil_append, List.cons_append, List.cons.injEq] at h
          exfalso
          apply hu
          rw [← h.2]
          exact List.mem_append_right _ (List.mem_cons_self _ _)
      | cons d bs =>
          simp only [List.cons_append, List.cons.injEq] at h
          obtain ⟨hab, htu⟩ := ih bs t u ht hu h.2
          exact ⟨by rw [h.1, hab], htu⟩

theorem data_append (s t : String) : (s ++ t).data = s.data ++ t.data := by
  cases s; cases t; rfl

theorem string_ext {s t : String} (h : s.data = t.data) : s = t := by
  cases s
  cases t
  exact congrArg String.mk h

theorem append_seg_data (x y : String) :
    (x ++ "_" ++ y).data = x.data ++ '_' :: y.data := by
  rw [data_append, data_append, List.append_assoc]
  rfl

theorem keyOf_serial_data (p : String) (s : Nat) :
    (keyOf (ConnectionIdentity.serial p s)).data
      = ("serial_" ++ p).data ++ '_' :: (natStr s).data :=
  append_seg_data ("serial_" ++ p) (natStr s)

theorem keyOf_tcp_data (h : String) (pt s : Nat) :
    (keyOf (ConnectionIdentity.tcp h pt s)).data
      = ("tcp_" ++ h ++ "_" ++ natStr pt).data ++ '_' :: (natStr s).data :=
  append_seg_data ("tcp_" ++ h ++ "_" ++ natStr pt) (natStr s)

theorem keyOf_rtu_data (h : String) (pt s : Nat) :
    (keyOf (ConnectionIdentity.rtuovertcp h pt s)).data
      = ("rtuovertcp_" ++ h ++ "_" ++ natStr pt).data ++ '_' :: (natStr s).data :=
  append_seg_data ("rtuovertcp_" ++ h ++ "_" ++ natStr pt) (natStr s)

theorem keyOf_serial_head (p : String) (s : Nat) :
    (keyOf (ConnectionIdentity.serial p s)).data.head? = some 's' := by
  show ("serial_" ++ p ++ "_" ++ natStr s).data.head? = some 's'
  rw [data_append, data_append, data_append]
  rfl

theorem keyOf_tcp_head (h : String) (pt s : Nat) :
    (keyOf (ConnectionIdentity.tcp h pt s)).data.head? = some 't' := by
  show ("tcp_" ++ h ++ "_" ++ natStr pt ++ "_" ++ natStr s).data.head? = some 't'
  rw [data_append, data_append, data_append, data_append, data_append]
  rfl

theorem keyOf_rtu_head (h : String) (pt s : Nat) :
    (keyOf (ConnectionIdentity.rtuovertcp h pt s)).data.head? = some 'r' := by
  show ("rtuovertcp_" ++ h ++ "_" ++ natStr pt ++ "_" ++ natStr s).data.head?
      = some 'r'
  rw [data_append, data_append, data_append, data_append, data_append]
  rfl

theorem keyOf_inj : ∀ i j : ConnectionIdentity, keyOf i = keyOf j → i = j := by
  intro i j h
  cases i with
  | serial p1 s1 =>
      cases j with
      | serial p2 s2 =>
          have hd : ("serial_" ++ p1).data ++ '_' :: (natStr s1).data
              = ("serial_" ++ p2).data ++ '_' :: (natStr s2).data := by
            rw [← keyOf_serial_data, ← keyOf_serial_data, h]
          obtain ⟨hpre, hs⟩ := append_underscore_inj _ _ _ _
            (natStr_no_underscore s1) (natStr_no_underscore s2) hd
          have hseq : s1 = s2 := natStr_inj (string_ext hs)
          have hp : p1 = p2 := by
            have h3 : "serial_".data ++ p1.data = "serial_".data ++ p2.data := by
              rw [← data_append, ← data_append]
              exact hpre
            exact string_ext (List.append_cancel_left h3)
          rw [hseq, hp]
      | tcp h2 pt2 s2 =>
          have ha := keyOf_serial_head p1 s1
          rw [h, keyOf_tcp_head] at ha
          exact absurd ha (by decide)
      | rtuovertcp h2 pt2 s2 =>
          have ha := keyOf_serial_head p1 s1
          rw [h, keyOf_rtu_head] at ha
          exact absurd ha (by decide)
  | tcp h1 pt1 s1 =>
      cases j with
      | serial p2 s2 =>
          have ha := keyOf_tcp_head h1 pt1 s1
          rw [h, keyOf_serial_head] at ha
          exact absurd ha (by decide)
      | tcp h2 pt2 s2 =>
          have hd : ("tcp_" ++ h1 ++ "_" ++ natStr pt1).data ++ '_' :: (natStr s1).data
              = ("tcp_" ++ h2 ++ "_" ++ natStr pt2).data ++ '_' :: (natStr s2).data := by
            rw [← keyOf_tcp_data, ← keyOf_tcp_data, h]
          obtain ⟨hpre, hs⟩ := append_underscore_inj _ _ _ _
            (natStr_no_underscore s1) (natStr_no_underscore s2) hd
          have hseq : s1 = s2 := natStr_inj (string_ext hs)
          have hd2 : ("tcp_" ++ h1).data ++ '_' :: (natStr pt1).data
              = ("tcp_" ++ h2).data ++ '_' :: (natStr pt2).data := by
            rw [← append_seg_data, ← append_seg_data]
            exact hpre
          obtain ⟨hpre2, hpt⟩ := append_underscore_inj _ _ _ _
            (natStr_no_underscore pt1) (natStr_no_underscore pt2) hd2
          have hpteq : pt1 = pt2 := natStr_inj (string_ext hpt)
          have hh : h1 = h2 := by
            have h3 : "tcp_".data ++ h1.data = "tcp_".data ++ h2.data := by
              rw [← data_append, ← data_append]
              exact hpre2
            exact string_ext (List.append_cancel_left h3)
          rw [hseq, hpteq, hh]
      | rtuovertcp h2 pt2 s2 =>
          have ha := keyOf_tcp_head h1 pt1 s1
          rw [h, keyOf_rtu_head] at ha
          exact absurd ha (by decide)
  | rtuovertcp h1 pt1 s1 =>
      cases j with
      | serial p2 s2 =>
          have ha := keyOf_rtu_head h1 pt1 s1
          rw [h, keyOf_serial_head] at ha
          exact absurd ha (by decide)
      | tcp h2 pt2 s2 =>
          have ha := keyOf_rtu_head h1 pt1 s1
          rw [h, keyOf_tcp_head] at ha
          exact absurd ha (by decide)
      | rtuovertcp h2 pt2 s2 =>
          have hd : ("rtuovertcp_" ++ h1 ++ "_" ++ natStr pt1).data
                ++ '_' :: (natStr s1).data
              = ("rtuovertcp_" ++ h2 ++ "_" ++ natStr pt2).data
                ++ '_' :: (natStr s2).data := by
            rw [← keyOf_rtu_data, ← keyOf_rtu_data, h]
          obtain ⟨hpre, hs⟩ := append_underscore_inj _ _ _ _
            (natStr_no_underscore s1) (natStr_no_underscore s2) hd
          have hseq : s1 = s2 := natStr_inj (string_ext hs)
          have hd2 : ("rtuovertcp_" ++ h1).data ++ '_' :: (natStr pt1).data
              = ("rtuovertcp_" ++ h2).data ++ '_' :: (natStr pt2).data := by
            rw [← append_seg_data, ← append_seg_data]
            exact hpre
          obtain ⟨hpre2, hpt⟩ := append_underscore_inj _ _ _ _
            (natStr_no_underscore pt1) (natStr_no_underscore pt2) hd2
          have hpteq : pt1 = pt2 := natStr_inj (string_ext hpt)
          have hh : h1 = h2 := by
            have h3 : "rtuovertcp_".data ++ h1.data
                = "rtuovertcp_".data ++ h2.data := by
              rw [← data_append, ← data_append]
              exact hpre2
            exact string_ext (List.append_cancel_left h3)
          rw [hseq, hpteq, hh]

theorem clientKey_eq_keyOf (cfg : Config) (s : Nat) (i : ConnectionIdentity)
    (h : identityOf cfg s = some i) : clientKey cfg s = keyOf i := by
  simp only [identityOf] at h
  simp only [clientKey]
  by_cases h1 : cfg.connectionType.getD CONNECTION_TYPE_SERIAL
      = CONNECTION_TYPE_SERIAL
  · rw [if_pos h1] at h ⊢
    cases hp : cfg.port with
    | none => rw [hp] at h; simp at h
    | some p =>
        rw [hp] at h
        injection h with h2
        subst h2
        rfl
  · rw [if_neg h1] at h ⊢
    by_cases h2 : cfg.connectionType.getD CONNECTION_TYPE_SERIAL
        = CONNECTION_TYPE_RTUOVERTCP
    · rw [if_pos h2] at h ⊢
      cases hh : cfg.host with
      | none => rw [hh] at h; simp at h
      | some hst =>
          rw [hh] at h
          injection h with h3
          subst h3
          rfl
    · rw [if_neg h2] at h ⊢
      cases hh : cfg.host with
      | none => rw [hh] at h; simp at h
      | some hst =>
          rw [hh] at h
          injection h with h3
          subst h3
          rfl

/-! ### Registry lemmas -/

theorem updInst_same (f : String → Option Manager) (k : String) (m : Manager) :
    updInst f k m k = some m := by
  simp [updInst]

theorem updInst_other (f : String → Option Manager) (k : String) (m : Manager)
    (k2 : String) (h : k2 ≠ k) : updInst f k m k2 = f k2 := by
  simp [updInst, h]

theorem runInit_of_inited (m : Manager) (cfg : Config) (s : Nat) (ctr : Nat)
    (h : m.inited = true) : runInit m cfg s ctr = Except.ok (m, ctr) := by
  simp [runInit, h]

theorem runInit_ok (m : Manager) (cfg : Config) (s : Nat) (ctr : Nat)
    (m2 : Manager) (c2 : Nat) (h : runInit m cfg s ctr = Except.ok (m2, c2)) :
    m2.uid = m.uid ∧ m2.inited = true ∧ ctr ≤ c2 := by
  unfold runInit at h
  split at h
  · next hin =>
      injection h with h2
      rw [Prod.mk.injEq] at h2
      obtain ⟨hm2, hc2⟩ := h2
      subst hm2
      subst hc2
      exact ⟨rfl, hin, Nat.le_refl ctr⟩
  · split at h
    · exact Except.noConfusion h
    · injection h with h2
      rw [Prod.mk.injEq] at h2
      obtain ⟨hm2, hc2⟩ := h2
      subst hm2
      refine ⟨rfl, rfl, ?_⟩
      rw [← hc2]
      exact Nat.le_succ ctr

theorem runInit_err (m : Manager) (cfg : Config) (s : Nat) (ctr : Nat)
    (e : ConfigError) (m2 : Manager)
    (h : runInit m cfg s ctr = Except.error (e, m2)) : m2.uid = m.uid := by
  unfold runInit at h
  split at h
  · exact Except.noConfusion h
  · split at h
    · injection h with h2
      rw [Prod.mk.injEq] at h2
      obtain ⟨he, hm2⟩ := h2
      rw [← hm2]
    · exact Except.noConfusion h

theorem resolve_eq_of_inited (r : Registry) (cfg : Config) (s : Nat)
    (m : Manager) (hins : r.instances (clientKey cfg s) = some m)
    (hin : m.inited = true) :
    resolve r cfg s = (Except.ok m,
      { r with instances := updInst r.instances (clientKey cfg s) m }) := by
  unfold resolve
  simp only [hins, runInit_of_inited m cfg s r.nextUid hin]

theorem resolve_stored (r : Registry) (cfg : Config) (s : Nat) (m : Manager)
    (h : (resolve r cfg s).1 = Except.ok m) :
    (resolve r cfg s).2.instances (clientKey cfg s) = some m
    ∧ m.inited = true := by
  unfold resolve at h ⊢
  cases hins : r.instances (clientKey cfg s) with
  | some m0 =>
      simp only [hins] at h ⊢
      cases hri : runInit m0 cfg s r.nextUid with
      | ok mc =>
          simp only [hri] at h ⊢
          injection h with h2
          subst h2
          exact ⟨updInst_same _ _ _,
            (runInit_ok m0 cfg s r.nextUid mc.1 mc.2 hri).2.1⟩
      | error em =>
          simp only [hri] at h
          exact Except.noConfusion h
  | none =>
      simp only [hins] at h ⊢
      cases hri : runInit (newManager r.nextUid) cfg s (r.nextUid + 1) with
      | ok mc =>
          simp only [hri] at h ⊢
          injection h with h2
          subst h2
          exact ⟨updInst_same _ _ _,
            (runInit_ok (newManager r.nextUid) cfg s (r.nextUid + 1) mc.1 mc.2
              hri).2.1⟩
      | error em =>
          simp only [hri] at h
          exact Except.noConfusion h

theorem resolve_instances_other (r : Registry) (cfg : Config) (s : Nat)
    (k2 : String) (h : k2 ≠ clientKey cfg s) :
    (resolve r cfg s).2.instances k2 = r.instances k2 := by
  unfold resolve
  cases hins : r.instances (clientKey cfg s) with
  | some m0 =>
      simp only [hins]
      cases hri : runInit m0 cfg s r.nextUid with
      | ok mc =>
          simp only [hri]
          exact updInst_other _ _ _ _ h
      | error em =>
          simp only [hri]
          exact updInst_other _ _ _ _ h
  | none =>
      simp only [hins]
      cases hri : runInit (newManager r.nextUid) cfg s (r.nextUid + 1) with
      | ok mc =>
          simp only [hri]
          rw [updInst_other _ _ _ _ h, updInst_other _ _ _ _ h]
      | error em =>
          simp only [hri]
          rw [updInst_other _ _ _ _ h, updInst_other _ _ _ _ h]

theorem resolve_uid_existing (r : Registry) (cfg : Config) (s : Nat)
    (m0 m : Manager) (hins : r.instances (clientKey cfg s) = some m0)
    (h : (resolve r cfg s).1 = Except.ok m) : m.uid = m0.uid := by
  unfold resolve at h
  simp only [hins] at h
  cases hri : runInit m0 cfg s r.nextUid with
  | ok mc =>
      simp only [hri] at h
      injection h with h2
      subst h2
      exact (runInit_ok m0 cfg s r.nextUid mc.1 mc.2 hri).1
  | error em =>
      simp only [hri] at h
      exact Except.noConfusion h

theorem resolve_uid_fresh (r : Registry) (cfg : Config) (s : Nat) (m : Manager)
    (hins : r.instances (clientKey cfg s) = none)
    (h : (resolve r cfg s).1 = Except.ok m) : m.uid = r.nextUid := by
  unfold resolve at h
  simp only [hins] at h
  cases hri : runInit (newManager r.nextUid) cfg s (r.nextUid + 1) with
  | ok mc =>
      simp only [hri] at h
      injection h with h2
      subst h2
      exact (runInit_ok (newManager r.nextUid) cfg s (r.nextUid + 1) mc.1 mc.2
        hri).1
  | error em =>
      simp only [hri] at h
      exact Except.noConfusion h

theorem updInst_twice (f : String → Option Manager) (k : String)
    (a b : Manager) (k2 : String) :
    updInst (updInst f k a) k b k2 = updInst f k b k2 := by
  by_cases h : k2 = k <;> simp [updInst, h]

theorem regWF_update_existing (r : Registry) (hwf : RegWF r) (k : String)
    (m0 mX : Manager) (n2 : Nat) (hins : r.instances k = some m0)
    (hux : mX.uid = m0.uid) (hn : r.nextUid ≤ n2) :
    RegWF { instances := updInst r.instances k mX
            nextUid := n2
            log := r.log } := by
  refine ⟨?_, ?_, ?_, hwf.logNodup⟩
  · dsimp only
    intro k2 m2 hk2
    by_cases hx : k2 = k
    · subst hx
      rw [updInst_same] at hk2
      injection hk2 with h3
      rw [← h3, hux]
      exact lt_of_lt_of_le (hwf.uidLt _ _ hins) hn
    · rw [updInst_other _ _ _ _ hx] at hk2
      exact lt_of_lt_of_le (hwf.uidLt _ _ hk2) hn
  · dsimp only
    intro k1 k2 m1 m2 hne h1 h2
    by_cases hx1 : k1 = k
    · subst hx1
      rw [updInst_same] at h1
      injection h1 with h1b
      rw [updInst_other _ _ _ _ (Ne.symm hne)] at h2
      rw [← h1b, hux]
      exact hwf.uidInj _ _ _ _ hne hins h2
    · rw [updInst_other _ _ _ _ hx1] at h1
      by_cases hx2 : k2 = k
      · subst hx2
        rw [updInst_same] at h2
        injection h2 with h2b
        rw [← h2b, hux]
        exact hwf.uidInj _ _ _ _ hne h1 hins
      · rw [updInst_other _ _ _ _ hx2] at h2
        exact hwf.uidInj _ _ _ _ hne h1 h2
  · dsimp only
    intro k2 hk2
    by_cases hx : k2 = k
    · subst hx
      rw [updInst_same]
      simp
    · rw [updInst_other _ _ _ _ hx]
      exact hwf.logSome k2 hk2

theorem regWF_update_fresh (r : Registry) (hwf : RegWF r) (k : String)
    (mX : Manager) (n2 : Nat) (hins : r.instances k = none)
    (hux : mX.uid = r.nextUid) (hn : r.nextUid + 1 ≤ n2) :
    RegWF { instances :=
              updInst (updInst r.instances k (newManager r.nextUid)) k mX
            nextUid := n2
            log := r.log ++ [k] } := by
  have hkey : k ∉ r.log := fun hk => (hwf.logSome _ hk) hins
  refine ⟨?_, ?_, ?_, ?_⟩
  · dsimp only
    intro k2 m2 hk2
    rw [updInst_twice] at hk2
    by_cases hx : k2 = k
    · subst hx
      rw [updInst_same] at hk2
      injection hk2 with h3
      rw [← h3, hux]
      omega
    · rw [updInst_other _ _ _ _ hx] at hk2
      have := hwf.uidLt _ _ hk2
      omega
  · dsimp only
    intro k1 k2 m1 m2 hne h1 h2
    rw [updInst_twice] at h1 h2
    by_cases hx1 : k1 = k
    · subst hx1
      rw [updInst_same] at h1
      injection h1 with h1b
      rw [updInst_other _ _ _ _ (Ne.symm hne)] at h2
      rw [← h1b, hux]
      have := hwf.uidLt _ _ h2
      omega
    · rw [updInst_other _ _ _ _ hx1] at h1
      by_cases hx2 : k2 = k
      · subst hx2
        rw [updInst_same] at h2
        injection h2 with h2b
        rw [← h2b, hux]
        have := hwf.uidLt _ _ h1
        omega
      · rw [updInst_other _ _ _ _ hx2] at h2
        exact hwf.uidInj _ _ _ _ hne h1 h2
  · dsimp only
    intro k2 hk2
    rw [updInst_twice]
    rw [List.mem_append] at hk2
    by_cases hx : k2 = k
    · subst hx
      rw [updInst_same]
      simp
    · rw [updInst_other _ _ _ _ hx]
      cases hk2 with
      | inl h3 => exact hwf.logSome k2 h3
      | inr h3 =>
          rw [List.mem_singleton] at h3
          exact absurd h3 hx
  · dsimp only
    rw [List.nodup_append]
    refine ⟨hwf.logNodup, List.nodup_singleton _, ?_⟩
    intro x hx1 hx2
    rw [List.mem_singleton] at hx2
    subst hx2
    exact hkey hx1

theorem resolve_WF (r : Registry) (hwf : RegWF r) (cfg : Config) (s : Nat) :
    RegWF (resolve r cfg s).2 := by
  unfold resolve
  cases hins : r.instances (clientKey cfg s) with
  | some m0 =>
      cases hri : runInit m0 cfg s r.nextUid with
      | ok mc =>
          simp only [hins, hri]
          obtain ⟨hu, _, hle⟩ := runInit_ok m0 cfg s r.nextUid mc.1 mc.2 hri
          exact regWF_update_existing r hwf _ m0 mc.1 mc.2 hins hu hle
      | error em =>
          simp only [hins, hri]
          have hu := runInit_err m0 cfg s r.nextUid em.1 em.2 hri
          exact regWF_update_existing r hwf _ m0 em.2 r.nextUid hins hu
            (Nat.le_refl _)
  | none =>
      cases hri : runInit (newManager r.nextUid) cfg s (r.nextUid + 1) with
      | ok mc =>
          simp only [hins, hri]
          obtain ⟨hu, _, hle⟩ :=
            runInit_ok (newManager r.nextUid) cfg s (r.nextUid + 1) mc.1 mc.2 hri
          exact regWF_update_fresh r hwf _ mc.1 mc.2 hins hu hle
      | error em =>
          simp only [hins, hri]
          have hu :=
            runInit_err (newManager r.nextUid) cfg s (r.nextUid + 1) em.1 em.2 hri
          exact regWF_update_fresh r hwf _ em.2 (r.nextUid + 1) hins hu
            (Nat.le_refl _)

theorem resolveAll_WF : ∀ (reqs : List (Config × Nat)) (r : Registry),
    RegWF r → RegWF (resolveAll r reqs) := by
  intro reqs
  induction reqs with
  | nil => intro r h; exact h
  | cons q qs ih => intro r h; exact ih _ (resolve_WF _ h q.1 q.2)

theorem emptyRegistry_WF : RegWF emptyRegistry := by
  refine ⟨?_, ?_, ?_, ?_⟩
  · intro k m h
    exact Option.noConfusion h
  · intro k1 k2 m1 m2 hne h1 h2
    exact Option.noConfusion h1
  · intro k hk
    exact absurd hk (List.not_mem_nil k)
  · exact List.nodup_nil

/-- Claim C1: the registry returns the identical manager instance for two
configurations deriving the same `ConnectionIdentity` and distinct
instances for different identities (the returned uids coincide exactly
when the identities do), and over any whole request sequence from process
start, at most one manager is ever allocated per key. -/
theorem C1_one_manager_per_identity (r : Registry) (hwf : RegWF r)
    (cfg1 cfg2 : Config) (s1 s2 : Nat) (i1 i2 : ConnectionIdentity)
    (h1 : identityOf cfg1 s1 = some i1) (h2 : identityOf cfg2 s2 = some i2)
    (m1 m2 : Manager)
    (e1 : (resolve r cfg1 s1).1 = Except.ok m1)
    (e2 : (resolve (resolve r cfg1 s1).2 cfg2 s2).1 = Except.ok m2) :
    (i1 = i2 ↔ m1.uid = m2.uid)
    ∧ ∀ reqs : List (Config × Nat), ∀ k : String,
        (resolveAll emptyRegistry reqs).log.count k ≤ 1 := by
  have hk1 : clientKey cfg1 s1 = keyOf i1 := clientKey_eq_keyOf cfg1 s1 i1 h1
  have hk2 : clientKey cfg2 s2 = keyOf i2 := clientKey_eq_keyOf cfg2 s2 i2 h2
  obtain ⟨hstored, hinited⟩ := resolve_stored r cfg1 s1 m1 e1
  have hwf1 : RegWF (resolve r cfg1 s1).2 := resolve_WF r hwf cfg1 s1
  constructor
  · constructor
    · intro hieq
      have hkeq : clientKey cfg2 s2 = clientKey cfg1 s1 := by
        rw [hk1, hk2, hieq]
      have hins2 : (resolve r cfg1 s1).2.instances (clientKey cfg2 s2)
          = some m1 := by
        rw [hkeq]
        exact hstored
      have heq := resolve_eq_of_inited (resolve r cfg1 s1).2 cfg2 s2 m1 hins2
        hinited
      rw [heq] at e2
      injection e2 with h3
      rw [h3]
    · intro huid
      by_contra hne
      have hkne : clientKey cfg2 s2 ≠ clientKey cfg1 s1 := by
        rw [hk1, hk2]
        intro hcon
        exact hne (keyOf_inj i2 i1 hcon).symm
      cases hins2 : (resolve r cfg1 s1).2.instances (clientKey cfg2 s2) with
      | some m0 =>
          have hu2 := resolve_uid_existing _ cfg2 s2 m0 m2 hins2 e2
          exact hwf1.uidInj _ _ _ _ (Ne.symm hkne) hstored hins2
            (huid.trans hu2)
      | none =>
          have hu2 := resolve_uid_fresh _ cfg2 s2 m2 hins2 e2
          have hlt := hwf1.uidLt _ _ hstored
          rw [huid, hu2] at hlt
          exact lt_irrefl _ hlt
  · intro reqs k
    have hwfe : RegWF (resolveAll emptyRegistry reqs) :=
      resolveAll_WF reqs emptyRegistry emptyRegistry_WF
    exact List.nodup_iff_count_le_one.mp hwfe.logNodup k

/-- Witness for C1: from the empty registry, resolving a serial
configuration twice (the second time with a different baud rate but the
same identity) yields the same instance uid, and a TCP configuration
afterwards yields a different one. -/
theorem C1_one_manager_per_identity_witness :
    ((ConnectionIdentity.serial "/dev/ttyUSB0" 1
        = ConnectionIdentity.serial "/dev/ttyUSB0" 1) ↔ ((0 : Nat) = 0))
    ∧ ((ConnectionIdentity.serial "/dev/ttyUSB0" 1
        = ConnectionIdentity.tcp "10.0.0.5" 502 1) ↔ ((0 : Nat) = 2)) := by
  constructor
  · exact (C1_one_manager_per_identity emptyRegistry emptyRegistry_WF
      ⟨none, some "/dev/ttyUSB0", none, none, none, none, none, none⟩
      ⟨none, some "/dev/ttyUSB0", none, some 19200, none, none, none, none⟩
      1 1
      (ConnectionIdentity.serial "/dev/ttyUSB0" 1)
      (ConnectionIdentity.serial "/dev/ttyUSB0" 1)
      rfl rfl
      ⟨0, true,
       some ⟨none, some "/dev/ttyUSB0", none, none, none, none, none, none⟩,
       some 1,
       some ⟨ClientKind.serial "/dev/ttyUSB0" 9600 8 "N" 1, 3, false⟩,
       some 1, some 0, some MIN_DELAY⟩
      ⟨0, true,
       some ⟨none, some "/dev/ttyUSB0", none, none, none, none, none, none⟩,
       some 1,
       some ⟨ClientKind.serial "/dev/ttyUSB0" 9600 8 "N" 1, 3, false⟩,
       some 1, some 0, some MIN_DELAY⟩
      rfl rfl).1
  · exact (C1_one_manager_per_identity emptyRegistry emptyRegistry_WF
      ⟨none, some "/dev/ttyUSB0", none, none, none, none, none, none⟩
      ⟨some "tcp", none, some "10.0.0.5", none, none, none, none, none⟩
      1 1
      (ConnectionIdentity.serial "/dev/ttyUSB0" 1)
      (ConnectionIdentity.tcp "10.0.0.5" 502 1)
      rfl rfl
      ⟨0, true,
       some ⟨none, some "/dev/ttyUSB0", none, none, none, none, none, none⟩,
       some 1,
       some ⟨ClientKind.serial "/dev/ttyUSB0" 9600 8 "N" 1, 3, false⟩,
       some 1, some 0, some MIN_DELAY⟩
      ⟨2, true,
       some ⟨some "tcp", none, some "10.0.0.5", none, none, none, none, none⟩,
       some 1,
       some ⟨ClientKind.tcp "10.0.0.5" 502 none, 3, false⟩,
       some 3, some 0, some MIN_DELAY⟩
      rfl rfl).1

/-- Claim C10: constructing a manager again with a configuration whose
`ConnectionIdentity` is already registered returns the stored instance
with every attribute unchanged — transport handle, lock, last request
time, stored configuration and slave id are not re-initialized, because
`__init__` returns immediately once `_initialized` is set. -/
theorem C10_reinit_is_noop (r : Registry) (cfg1 cfg2 : Config) (s1 s2 : Nat)
    (i : ConnectionIdentity) (m1 : Manager)
    (h1 : identityOf cfg1 s1 = some i) (h2 : identityOf cfg2 s2 = some i)
    (e1 : (resolve r cfg1 s1).1 = Except.ok m1) :
    (resolve (resolve r cfg1 s1).2 cfg2 s2).1 = Except.ok m1
    ∧ (resolve (resolve r cfg1 s1).2 cfg2 s2).2.instances (clientKey cfg2 s2)
        = some m1 := by
  have hk : clientKey cfg2 s2 = clientKey cfg1 s1 := by
    rw [clientKey_eq_keyOf cfg1 s1 i h1, clientKey_eq_keyOf cfg2 s2 i h2]
  obtain ⟨hstored, hinited⟩ := resolve_stored r cfg1 s1 m1 e1
  have hins2 : (resolve r cfg1 s1).2.instances (clientKey cfg2 s2)
      = some m1 := by
    rw [hk]
    exact hstored
  have heq := resolve_eq_of_inited (resolve r cfg1 s1).2 cfg2 s2 m1 hins2
    hinited
  constructor
  · rw [heq]
  · rw [heq]
    exact updInst_same _ _ _

/-- Witness for C10: re-resolving the serial configuration with a changed
baud rate returns the stored manager, whose stored configuration is still
the original one (baud rate field `none`). -/
theorem C10_reinit_is_noop_witness :
    (resolve (resolve emptyRegistry
        ⟨none, some "/dev/ttyUSB0", none, none, none, none, none, none⟩ 1).2
        ⟨none, some "/dev/ttyUSB0", none, some 19200, none, none, none, none⟩
        1).1
      = Except.ok
        ⟨0, true,
         some ⟨none, some "/dev/ttyUSB0", none, none, none, none, none, none⟩,
         some 1,
         some ⟨ClientKind.serial "/dev/ttyUSB0" 9600 8 "N" 1, 3, false⟩,
         some 1, some 0, some MIN_DELAY⟩ :=
  (C10_reinit_is_noop emptyRegistry
    ⟨none, some "/dev/ttyUSB0", none, none, none, none, none, none⟩
    ⟨none, some "/dev/ttyUSB0", none, some 19200, none, none, none, none⟩
    1 1
    (ConnectionIdentity.serial "/dev/ttyUSB0" 1)
    ⟨0, true,
     some ⟨none, some "/dev/ttyUSB0", none, none, none, none, none, none⟩,
     some 1,
     some ⟨ClientKind.serial "/dev/ttyUSB0" 9600 8 "N" 1, 3, false⟩,
     some 1, some 0, some MIN_DELAY⟩
    rfl rfl rfl).1

end Medole
